import Mathlib

set_option maxHeartbeats 1000000

/-!
Verification development for the semantic job matcher of this repository
(`src/embedding_matcher.py`, class `SemanticJobMatcher`), together with the
skill matching helper shared with `src/job_matching.py`.

Modelling conventions:
- Python floats are modelled exactly: the skill and experience scores are
  rational-valued (`ℚ`), the embedding vectors and cosine similarity are
  real-valued (`ℝ`).
- A Python float that is NaN is modelled as `none` in `Option ℝ`: the numpy
  division in `_cosine_similarity` produces NaN (with a runtime warning, not
  an exception) exactly when the product of the two norms is zero, and NaN
  then propagates through the later arithmetic on the overall score.
- The external embedder (`AzureEmbeddingClient.get_embedding`) is passed as a
  function `String → Option (List ℝ)`; `none` models the `None` that the
  Python client returns when the service is unavailable or errors out.
- `datetime.now().isoformat()` is modelled by an explicit `now : String`
  argument threaded to the point where the source reads the clock.
-/

/-- Job posting record, after the dataclass `JobPosting` in
`src/embedding_matcher.py`. The `embedding` field is the optional cached
embedding vector. -/
structure JobPosting where
  job_id : String
  title : String
  company : String
  description : String
  required_skills : List String
  preferred_skills : List String
  experience_years : Int
  location : String
  salary_range : String
  posted_date : String
  embedding : Option (List ℝ) := none
  embedding_cached : Bool := false

/-- Match record, after the dataclass `EmbeddingMatch` in
`src/embedding_matcher.py`. The source also stores an `analysis` string
produced by `_generate_analysis(embedding_similarity, keyword_match_score,
matched_skills, missing_skills)`; that string is a pure function of four
other fields of the same record (its rendering uses float formatting), so it
carries no extra information and is omitted from the model. `none` in
`embedding_similarity` and `overall_score` models the float NaN. -/
structure EmbeddingMatch where
  job_id : String
  job_title : String
  company : String
  embedding_similarity : Option ℝ
  keyword_match_score : ℚ
  experience_match : ℚ
  education_match : ℚ
  overall_score : Option ℝ
  matched_skills : List String
  missing_skills : List String
  timestamp : String

/-- Dot product of two equal-length vectors, as computed by `np.dot` on
one-dimensional arrays (`src/embedding_matcher.py` line 399). -/
def dotp : List ℝ → List ℝ → ℝ
  | a :: as, b :: bs => a * b + dotp as bs
  | _, _ => 0

/-- Sum of squares of the entries of a vector; `np.linalg.norm v` is its
square root. -/
def sumSq (v : List ℝ) : ℝ := dotp v v

/-- Model of `SemanticJobMatcher._cosine_similarity`
(`src/embedding_matcher.py` lines 388 to 407). The body computes
`np.dot(arr1, arr2) / (np.linalg.norm(arr1) * np.linalg.norm(arr2))` and
rescales by `(x + 1) / 2` inside a `try` block:
- for vectors of different lengths `np.dot` raises `ValueError`, the
  `except` branch catches it and returns `0.0`;
- for equal lengths no exception occurs; when the denominator is zero the
  numerator is zero as well (a zero norm forces a zero vector) and numpy
  evaluates `0.0 / 0.0` to NaN with a warning, so the function returns the
  float NaN, modelled as `none`; the rescaling `(NaN + 1) / 2` stays NaN. -/
noncomputable def cosine_similarity (embedding1 embedding2 : List ℝ) : Option ℝ :=
  if embedding1.length ≠ embedding2.length then some 0
  else
    let n := Real.sqrt (sumSq embedding1) * Real.sqrt (sumSq embedding2)
    if n = 0 then none
    else some ((dotp embedding1 embedding2 / n + 1) / 2)

/-- Model of the Python string method `lower`: lower-case every character of
the string. -/
def pyLower (s : String) : String := String.mk (s.data.map Char.toLower)

/-- Model of `SemanticJobMatcher._calculate_keyword_match`
(`src/embedding_matcher.py` lines 409 to 434); `JobMatcher._match_skills` in
`src/job_matching.py` lines 301 to 331 is the same computation. All three
inputs are lower-cased (no trimming, no synonym resolution); `matched` and
`missing` split the lower-cased required list by membership in the
lower-cased candidate list; the score is the matched fraction plus a capped
bonus of a tenth of the preferred-skill overlap when the preferred list is
non-empty. -/
def calculate_keyword_match (cv_skills required_skills preferred_skills : List String) :
    ℚ × List String × List String :=
  let cv_skills_lower := cv_skills.map pyLower
  let required_lower := required_skills.map pyLower
  let preferred_lower := preferred_skills.map pyLower
  let matched := required_lower.filter (fun s => decide (s ∈ cv_skills_lower))
  let missing := required_lower.filter (fun s => decide (s ∉ cv_skills_lower))
  if required_skills.length = 0 then (1, matched, missing)
  else
    let match_score : ℚ := (matched.length : ℚ) / (required_skills.length : ℚ)
    if preferred_skills = [] then (match_score, matched, missing)
    else
      let preferred_matched := preferred_lower.filter (fun s => decide (s ∈ cv_skills_lower))
      (min (match_score + (preferred_matched.length : ℚ) / (preferred_skills.length : ℚ) * 0.1) 1,
        matched, missing)

/-- Model of `SemanticJobMatcher._calculate_experience_match`
(`src/embedding_matcher.py` lines 436 to 445): `1.0` when the requirement is
zero, otherwise `min(cv_years / required_years, 1.0)`. The source performs
no input validation: negative arguments flow through the same formula. -/
def calculate_experience_match (cv_years required_years : ℤ) : ℚ :=
  if required_years = 0 then 1
  else min ((cv_years : ℚ) / (required_years : ℚ)) 1

/-- Canonical text embedded for a job, as built at
`src/embedding_matcher.py` line 329:
`f"{job.title} {job.description} {' '.join(job.required_skills)}"`. -/
def job_text (job : JobPosting) : String :=
  job.title ++ " " ++ job.description ++ " " ++ String.intercalate " " job.required_skills

/-- Python truthiness of an optional float list: `None` and the empty list
are falsy, any non-empty list is truthy. Used for `if not job.embedding`
and `if job.embedding` in `match_cv_to_jobs`. -/
def truthyEmb : Option (List ℝ) → Bool
  | none => false
  | some l => !l.isEmpty

/-- Construction of one `EmbeddingMatch` record inside the loop of
`SemanticJobMatcher.match_cv_to_jobs` (`src/embedding_matcher.py` lines 332
to 381): cosine similarity against the job embedding `je`, keyword and
experience scores, the constant education placeholder `0.7`, the four-factor
weighted overall score (NaN-propagating through `Option.map`), and the
clock value stored in the `timestamp` field. -/
noncomputable def mk_match (now : String) (cv_embedding : List ℝ) (cv_skills : List String)
    (cv_experience_years : ℤ) (job : JobPosting) (je : List ℝ) : EmbeddingMatch :=
  let similarity := cosine_similarity cv_embedding je
  let kw := calculate_keyword_match cv_skills job.required_skills job.preferred_skills
  let experience_score := calculate_experience_match cv_experience_years job.experience_years
  let education_score : ℚ := 0.7
  { job_id := job.job_id
    job_title := job.title
    company := job.company
    embedding_similarity := similarity
    keyword_match_score := kw.1
    experience_match := experience_score
    education_match := education_score
    overall_score := similarity.map (fun s =>
      s * 0.40 + (kw.1 : ℝ) * 0.30 + (experience_score : ℝ) * 0.15 + (education_score : ℝ) * 0.15)
    matched_skills := kw.2.1
    missing_skills := kw.2.2
    timestamp := now }

/-- Per-job step of the loop in `match_cv_to_jobs`: when the cached
`job.embedding` is falsy the source regenerates it through the embedder, and
the job contributes a record only when the resulting embedding is truthy
(`if job.embedding:` at line 332); otherwise the job is skipped. -/
noncomputable def score_job (embed : String → Option (List ℝ)) (now : String)
    (cv_embedding : List ℝ) (cv_skills : List String) (cv_experience_years : ℤ)
    (job : JobPosting) : Option EmbeddingMatch :=
  let jemb := if truthyEmb job.embedding then job.embedding else embed (job_text job)
  match jemb with
  | none => none
  | some je =>
    if je.isEmpty then none
    else some (mk_match now cv_embedding cv_skills cv_experience_years job je)

/-- Whether a job obtains a usable embedding in `match_cv_to_jobs`: either a
truthy cached vector or a truthy value from the embedder. -/
def embedding_obtained (embed : String → Option (List ℝ)) (job : JobPosting) : Bool :=
  truthyEmb (if truthyEmb job.embedding then job.embedding else embed (job_text job))

/-- The unsorted list of match records produced by the loop of
`match_cv_to_jobs`, in the insertion order of the jobs cache (Python dicts
iterate in insertion order). -/
noncomputable def candidate_matches (embed : String → Option (List ℝ)) (now : String)
    (jobs_cache : List JobPosting) (cv_embedding : List ℝ) (cv_skills : List String)
    (cv_experience_years : ℤ) : List EmbeddingMatch :=
  jobs_cache.filterMap (score_job embed now cv_embedding cv_skills cv_experience_years)

/-- Descending comparison on optional float keys used to model
`matches.sort(key=lambda x: x.overall_score, reverse=True)`. On two ordinary
floats it is the reverse order. A NaN key (`none`) makes the behaviour of
the Python sort unspecified by its comparisons; the model extends the order
totally by treating NaN as the smallest key, and every ordering theorem
below about real scores assumes NaN-free keys. -/
noncomputable def optKeyLe : Option ℝ → Option ℝ → Bool
  | none, _ => true
  | some _, none => false
  | some x, some y => decide (x ≤ y)

/-- Stable-sort relation for `match_cv_to_jobs`: `a` may stay before `b`
when the overall score of `a` is at least that of `b`. -/
noncomputable def matchLe (a b : EmbeddingMatch) : Bool :=
  optKeyLe b.overall_score a.overall_score

/-- Model of `SemanticJobMatcher.match_cv_to_jobs`
(`src/embedding_matcher.py` lines 300 to 386): obtain the CV embedding
(returning the empty list when it is falsy), score each job of the cache
that obtains a truthy embedding, and stably sort the records by descending
overall score (`list.sort` is stable, so equal keys keep insertion order). -/
noncomputable def match_cv_to_jobs (embed : String → Option (List ℝ)) (now : String)
    (jobs_cache : List JobPosting) (cv_text : String) (cv_skills : List String)
    (cv_experience_years : ℤ) : List EmbeddingMatch :=
  match embed cv_text with
  | none => []
  | some cv_embedding =>
    if cv_embedding.isEmpty then []
    else
      (candidate_matches embed now jobs_cache cv_embedding cv_skills
        cv_experience_years).mergeSort matchLe

/-- Timestamp erasure, used to state determinism of everything except the
clock-dependent `timestamp` field. -/
def erase_ts (m : EmbeddingMatch) : EmbeddingMatch := { m with timestamp := "" }

/-! ### Helper lemmas about the skill matcher -/

/-- Lower-casing a list of already lower-case strings is the identity. -/
theorem map_pyLower_of_normalized {l : List String} (h : ∀ s ∈ l, pyLower s = s) :
    l.map pyLower = l := by
  induction l with
  | nil => rfl
  | cons a t ih =>
    simp only [List.map_cons, h a (by simp), ih (fun s hs => h s (by simp [hs]))]

/-- In every branch of `calculate_keyword_match`, the returned matched and
missing lists split the lower-cased required list by membership in the
lower-cased candidate list. -/
theorem keyword_match_snd (cv req pref : List String) :
    (calculate_keyword_match cv req pref).2 =
      ((req.map pyLower).filter (fun s => decide (s ∈ cv.map pyLower)),
       (req.map pyLower).filter (fun s => decide (s ∉ cv.map pyLower))) := by
  unfold calculate_keyword_match
  split_ifs <;> rfl

/-- The score component of `calculate_keyword_match` when the required list
is non-empty and no preferred skills are given. -/
theorem keyword_match_fst_no_pref (cv req : List String) (hne : req.length ≠ 0) :
    (calculate_keyword_match cv req []).1 =
      ((((req.map pyLower).filter (fun s => decide (s ∈ cv.map pyLower))).length : ℚ) /
        (req.length : ℚ)) := by
  unfold calculate_keyword_match
  simp [hne]

/-- The score of `calculate_keyword_match` always lies in the unit
interval. -/
theorem keyword_match_fst_bounds (cv req pref : List String) :
    0 ≤ (calculate_keyword_match cv req pref).1 ∧ (calculate_keyword_match cv req pref).1 ≤ 1 := by
  unfold calculate_keyword_match
  split_ifs with h0 hp
  · exact ⟨zero_le_one, le_refl 1⟩
  · constructor
    · positivity
    · rw [div_le_one (by exact_mod_cast Nat.pos_of_ne_zero h0)]
      exact_mod_cast (List.length_filter_le _ _).trans (le_of_eq (List.length_map _ _))
  · constructor
    · exact le_min (by positivity) zero_le_one
    · exact min_le_right _ _


/-! ### C8: experience scoring -/

/-- C8 (amended): `_calculate_experience_match` returns `1.0` when the
required years are zero and `min(cv_years / required_years, 1.0)` otherwise,
so a candidate whose experience meets or exceeds a positive requirement
scores exactly `1.0` with no over-qualification penalty. The source has no
input validation and no error channel, so negative input does not fail with
`InvalidInput` (see the counterexample). -/
theorem experience_match_formula (cv_years required_years : ℤ) :
    (required_years = 0 → calculate_experience_match cv_years required_years = 1) ∧
    (required_years ≠ 0 →
      calculate_experience_match cv_years required_years =
        min ((cv_years : ℚ) / (required_years : ℚ)) 1) ∧
    (0 < required_years → required_years ≤ cv_years →
      calculate_experience_match cv_years required_years = 1) := by
  refine ⟨fun h => by simp [calculate_experience_match, h],
    fun h => by simp [calculate_experience_match, h], fun hpos hle => ?_⟩
  have hq : (0 : ℚ) < (required_years : ℚ) := by exact_mod_cast hpos
  have h1 : (1 : ℚ) ≤ (cv_years : ℚ) / (required_years : ℚ) := by
    rw [le_div_iff₀ hq, one_mul]
    exact_mod_cast hle
  simp [calculate_experience_match, hpos.ne', min_eq_right h1]

/-- C8 witness: concrete instances of the three cases of the amended
statement. -/
theorem experience_match_formula_witness :
    calculate_experience_match 5 0 = 1 ∧
    calculate_experience_match 1 2 = 1 / 2 ∧
    calculate_experience_match 7 2 = 1 := by
  refine ⟨(experience_match_formula 5 0).1 rfl, ?_,
    (experience_match_formula 7 2).2.2 (by decide) (by decide)⟩
  rw [(experience_match_formula 1 2).2.1 (by decide)]
  norm_num

/-- C8 counterexample: negative input does not fail with an `InvalidInput`
error; the source validates nothing, and at `cv_years = -1`,
`required_years = 2` it returns the numeric value `-1/2`. -/
theorem experience_match_negative_counterexample :
    calculate_experience_match (-1) 2 = -(1 / 2) := by
  norm_num [calculate_experience_match, min_def]


/-! ### C5: skill score formula -/

/-- C5 (confirmed): for normalized skill sets (lower-case strings without
duplicates, as the data model of the spec prescribes),
`_calculate_keyword_match` returns the score
`|candidate ∩ required| / |required|` plus, when the preferred list is
non-empty, a bonus of `(|candidate ∩ preferred| / |preferred|) * 0.1`, the
sum capped at `1.0` (the cap is inert when the preferred list is empty,
since the base fraction cannot exceed one); and when the required list is
empty it returns score `1.0` with both matched and missing empty. -/
theorem keyword_match_score_formula (cv req pref : List String)
    (hcv : ∀ s ∈ cv, pyLower s = s) (hreq : ∀ s ∈ req, pyLower s = s)
    (hpref : ∀ s ∈ pref, pyLower s = s) (hreqnd : req.Nodup) (hprefnd : pref.Nodup) :
    (req = [] → calculate_keyword_match cv req pref = (1, [], [])) ∧
    (req ≠ [] →
      (calculate_keyword_match cv req pref).1 =
        min (((req.inter cv).length : ℚ) / (req.length : ℚ) +
          (if pref = [] then 0
           else ((pref.inter cv).length : ℚ) / (pref.length : ℚ) * 0.1)) 1) := by
  have hmcv : cv.map pyLower = cv := map_pyLower_of_normalized hcv
  have hmreq : req.map pyLower = req := map_pyLower_of_normalized hreq
  have hmpref : pref.map pyLower = pref := map_pyLower_of_normalized hpref
  have hinter : ∀ l : List String, l.inter cv = l.filter (fun s => decide (s ∈ cv)) := by
    intro l
    simp [List.inter]
  constructor
  · rintro rfl
    rfl
  · intro hne
    have hlen : req.length ≠ 0 := by simpa using hne
    have hbase_le : ((req.filter (fun s => decide (s ∈ cv))).length : ℚ) / (req.length : ℚ) ≤ 1 := by
      rw [div_le_one (by exact_mod_cast Nat.pos_of_ne_zero hlen)]
      exact_mod_cast List.length_filter_le _ _
    unfold calculate_keyword_match
    rw [hmcv, hmreq, hmpref]
    by_cases hp : pref = []
    · simp only [hlen, if_false, hp, if_true, hinter, if_pos]
      rw [add_zero, min_eq_left hbase_le]
    · simp only [hlen, if_false, hp, if_neg, ite_false, hinter]

/-- C5 witness: the worked example of the spec, a candidate with skills
`python, docker` against required `python, docker, azure` and preferred
`kubernetes`, plus the empty-required edge case. -/
theorem keyword_match_score_formula_witness :
    calculate_keyword_match ["python", "docker"] [] ["kubernetes"] = (1, [], []) ∧
    (calculate_keyword_match ["python", "docker"] ["python", "docker", "azure"]
        ["kubernetes"]).1 =
      min ((((["python", "docker", "azure"] : List String).inter ["python", "docker"]).length : ℚ) /
          ((["python", "docker", "azure"] : List String).length : ℚ) +
        (if (["kubernetes"] : List String) = [] then 0
         else (((["kubernetes"] : List String).inter ["python", "docker"]).length : ℚ) /
           ((["kubernetes"] : List String).length : ℚ) * 0.1)) 1 :=
  ⟨(keyword_match_score_formula ["python", "docker"] [] ["kubernetes"]
      (by decide) (by decide) (by decide) (by decide) (by decide)).1 rfl,
   (keyword_match_score_formula ["python", "docker"] ["python", "docker", "azure"] ["kubernetes"]
      (by decide) (by decide) (by decide) (by decide) (by decide)).2 (by decide)⟩


/-! ### C6: matched and missing partition the required skills -/

/-- C6 (confirmed): for a normalized non-empty required list, the matched
and missing lists returned by `_calculate_keyword_match` partition the
required list — their concatenation is a permutation of it and no skill is
in both — and the returned score lies in the unit interval. -/
theorem keyword_match_partition (cv req pref : List String)
    (hreq : ∀ s ∈ req, pyLower s = s) (hne : req ≠ []) :
    ((calculate_keyword_match cv req pref).2.1 ++
      (calculate_keyword_match cv req pref).2.2).Perm req ∧
    (∀ s ∈ (calculate_keyword_match cv req pref).2.1,
      s ∉ (calculate_keyword_match cv req pref).2.2) ∧
    0 ≤ (calculate_keyword_match cv req pref).1 ∧
    (calculate_keyword_match cv req pref).1 ≤ 1 := by
  have hsnd := keyword_match_snd cv req pref
  have h1 := congrArg Prod.fst hsnd
  have h2 := congrArg (fun p => Prod.snd p) hsnd
  simp only at h1 h2
  have hmreq : req.map pyLower = req := map_pyLower_of_normalized hreq
  refine ⟨?_, ?_, keyword_match_fst_bounds cv req pref⟩
  · rw [h1, h2, hmreq]
    have hq : (fun s => decide (s ∉ cv.map pyLower)) =
        (fun s => !(decide (s ∈ cv.map pyLower))) := by
      funext s
      simp only [decide_not]
    rw [hq]
    exact List.filter_append_perm _ req
  · intro s hs hs2
    rw [h1] at hs
    rw [h2] at hs2
    simp only [List.mem_filter, decide_eq_true_eq] at hs hs2
    exact hs2.2 hs.2

/-- C6 witness: concrete partition check for required `python, azure`
against candidate `python`. -/
theorem keyword_match_partition_witness :
    ((calculate_keyword_match ["python"] ["python", "azure"] []).2.1 ++
      (calculate_keyword_match ["python"] ["python", "azure"] []).2.2).Perm
      ["python", "azure"] ∧
    (∀ s ∈ (calculate_keyword_match ["python"] ["python", "azure"] []).2.1,
      s ∉ (calculate_keyword_match ["python"] ["python", "azure"] []).2.2) ∧
    0 ≤ (calculate_keyword_match ["python"] ["python", "azure"] []).1 ∧
    (calculate_keyword_match ["python"] ["python", "azure"] []).1 ≤ 1 :=
  keyword_match_partition ["python"] ["python", "azure"] [] (by decide) (by decide)


/-! ### C7: normalization is lower-casing only -/

/-- C7 counterexample: skills differing only in surrounding whitespace are
NOT treated as equal — the source lower-cases but never trims. A candidate
skill `python` does not match a required skill with a trailing blank: the
score is `0` and nothing is matched. -/
theorem keyword_match_trim_counterexample :
    (calculate_keyword_match ["python"] ["python "] []).1 = 0 ∧
    (calculate_keyword_match ["python"] ["python "] []).2.1 = [] := by
  constructor
  · rw [keyword_match_fst_no_pref ["python"] ["python "] (by decide)]
    have h : ((["python "].map pyLower).filter
        (fun s => decide (s ∈ (["python"] : List String).map pyLower))) = ([] : List String) := by
      decide
    rw [h]
    norm_num
  · decide

/-- C7 (amended): skill strings are compared case-insensitively — a skill is
matched exactly when its lower-cased form occurs among the lower-cased
candidate skills — with no trimming of surrounding whitespace and no synonym
resolution: case-variants match, whitespace-variants do not, and `js` never
matches `javascript`. -/
theorem keyword_match_case_insensitive_no_trim :
    (∀ cv req pref s, s ∈ (calculate_keyword_match cv req pref).2.1 ↔
        (s ∈ req.map pyLower ∧ s ∈ cv.map pyLower)) ∧
    (calculate_keyword_match ["Python"] ["PYTHON"] []).1 = 1 ∧
    (calculate_keyword_match ["js"] ["javascript"] []).2.1 = [] ∧
    (calculate_keyword_match ["python"] [" python"] []).1 = 0 := by
  refine ⟨?_, ?_, by decide, ?_⟩
  · intro cv req pref s
    have h1 := congrArg Prod.fst (keyword_match_snd cv req pref)
    simp only at h1
    rw [h1]
    simp [List.mem_filter]
  · rw [keyword_match_fst_no_pref ["Python"] ["PYTHON"] (by decide)]
    have h : ((["PYTHON"].map pyLower).filter
        (fun s => decide (s ∈ (["Python"] : List String).map pyLower))) = ["python"] := by
      decide
    rw [h]
    norm_num
  · rw [keyword_match_fst_no_pref ["python"] [" python"] (by decide)]
    have h : (([" python"].map pyLower).filter
        (fun s => decide (s ∈ (["python"] : List String).map pyLower))) = ([] : List String) := by
      decide
    rw [h]
    norm_num


/-! ### Helper lemmas about the cosine similarity -/

/-- A sum of squares is non-negative. -/
theorem sumSq_nonneg (v : List ℝ) : 0 ≤ sumSq v := by
  induction v with
  | nil => simp [sumSq, dotp]
  | cons a t ih =>
    have h : sumSq (a :: t) = a * a + sumSq t := rfl
    rw [h]
    nlinarith [mul_self_nonneg a]

/-! ### C2: zero-magnitude vectors -/

/-- C2 counterexample: calling `_cosine_similarity` with a zero vector in
both positions does not fail with a `DegenerateVector` error — no such error
type exists anywhere in the repository and the function raises nothing; the
numpy division evaluates `0.0 / 0.0` to the float NaN (modelled `none`),
which the function returns as its value. -/
theorem cosine_zero_vector_counterexample : cosine_similarity [0] [0] = none := by
  unfold cosine_similarity
  norm_num [sumSq, dotp]

/-- C2 (amended): whenever either argument has zero magnitude (and the
lengths agree, so that `np.dot` does not raise), `_cosine_similarity`
returns the float NaN (modelled `none`) rather than failing: the division
by the zero norm product produces NaN with only a runtime warning, and the
caller receives NaN as an ordinary return value. -/
theorem cosine_zero_vector_returns_nan (e1 e2 : List ℝ) (hlen : e1.length = e2.length)
    (h : sumSq e1 = 0 ∨ sumSq e2 = 0) : cosine_similarity e1 e2 = none := by
  unfold cosine_similarity
  rw [if_neg (by simp [hlen])]
  rcases h with h | h <;> simp [h]

/-- C2 witness: a two-dimensional zero vector against a non-zero vector. -/
theorem cosine_zero_vector_returns_nan_witness : cosine_similarity [0, 0] [1, 1] = none :=
  cosine_zero_vector_returns_nan [0, 0] [1, 1] (by simp)
    (Or.inl (by norm_num [sumSq, dotp]))

/-! ### C4: the cosine formula -/

/-- C4 (confirmed): for equal-length vectors of non-zero magnitude,
`_cosine_similarity` returns `(dot / (norm1 * norm2) + 1) / 2`; in
particular a non-zero vector against itself scores exactly `1`, and
orthogonal vectors (zero dot product) score exactly `1/2`. -/
theorem cosine_formula (a b : List ℝ) (hlen : a.length = b.length)
    (ha : sumSq a ≠ 0) (hb : sumSq b ≠ 0) :
    cosine_similarity a b =
      some ((dotp a b / (Real.sqrt (sumSq a) * Real.sqrt (sumSq b)) + 1) / 2) ∧
    (∀ v : List ℝ, sumSq v ≠ 0 → cosine_similarity v v = some 1) ∧
    (dotp a b = 0 → cosine_similarity a b = some (1 / 2)) := by
  have key : ∀ x y : List ℝ, x.length = y.length → sumSq x ≠ 0 → sumSq y ≠ 0 →
      cosine_similarity x y =
        some ((dotp x y / (Real.sqrt (sumSq x) * Real.sqrt (sumSq y)) + 1) / 2) := by
    intro x y hl hx hy
    have hsx : Real.sqrt (sumSq x) ≠ 0 := by
      rw [Real.sqrt_ne_zero']
      exact lt_of_le_of_ne (sumSq_nonneg x) (Ne.symm hx)
    have hsy : Real.sqrt (sumSq y) ≠ 0 := by
      rw [Real.sqrt_ne_zero']
      exact lt_of_le_of_ne (sumSq_nonneg y) (Ne.symm hy)
    unfold cosine_similarity
    rw [if_neg (by simp [hl])]
    simp only [if_neg (mul_ne_zero hsx hsy)]
  refine ⟨key a b hlen ha hb, ?_, ?_⟩
  · intro v hv
    rw [key v v rfl hv hv, Real.mul_self_sqrt (sumSq_nonneg v)]
    have hd : dotp v v = sumSq v := rfl
    rw [hd, div_self hv]
    norm_num
  · intro h0
    rw [key a b hlen ha hb, h0, zero_div]
    norm_num

/-- C4 witness: a one-dimensional vector against itself scores `1`, and the
orthogonal pair `(1,0)`, `(0,1)` scores `1/2`. -/
theorem cosine_formula_witness :
    cosine_similarity [1] [1] = some 1 ∧ cosine_similarity [1, 0] [0, 1] = some (1 / 2) :=
  ⟨(cosine_formula [1] [1] rfl (by norm_num [sumSq, dotp]) (by norm_num [sumSq, dotp])).2.1
      [1] (by norm_num [sumSq, dotp]),
   (cosine_formula [1, 0] [0, 1] rfl (by norm_num [sumSq, dotp])
      (by norm_num [sumSq, dotp])).2.2 (by norm_num [dotp])⟩


/-! ### Structural lemmas about the ranking pipeline -/

/-- A constructed match record carries the clock value in its timestamp. -/
theorem mk_match_timestamp (now : String) (cve : List ℝ) (sk : List String) (yrs : ℤ)
    (job : JobPosting) (je : List ℝ) :
    (mk_match now cve sk yrs job je).timestamp = now := rfl

/-- A constructed match record carries the id of its job. -/
theorem mk_match_job_id (now : String) (cve : List ℝ) (sk : List String) (yrs : ℤ)
    (job : JobPosting) (je : List ℝ) :
    (mk_match now cve sk yrs job je).job_id = job.job_id := rfl

/-- The education sub-score of every constructed record is the constant
placeholder `0.7` of the source. -/
theorem mk_match_education (now : String) (cve : List ℝ) (sk : List String) (yrs : ℤ)
    (job : JobPosting) (je : List ℝ) :
    (mk_match now cve sk yrs job je).education_match = 0.7 := rfl

/-- The overall score of a constructed record is the four-factor weighted
blend of its own sub-scores, with NaN propagating from the similarity. -/
theorem mk_match_overall (now : String) (cve : List ℝ) (sk : List String) (yrs : ℤ)
    (job : JobPosting) (je : List ℝ) :
    (mk_match now cve sk yrs job je).overall_score =
      (mk_match now cve sk yrs job je).embedding_similarity.map (fun s =>
        s * 0.40 + ((mk_match now cve sk yrs job je).keyword_match_score : ℝ) * 0.30 +
        ((mk_match now cve sk yrs job je).experience_match : ℝ) * 0.15 +
        ((mk_match now cve sk yrs job je).education_match : ℝ) * 0.15) := rfl

/-- A job contributes no record exactly when it obtains no usable
embedding. -/
theorem score_job_eq_none_iff (embed : String → Option (List ℝ)) (now : String)
    (cve : List ℝ) (sk : List String) (yrs : ℤ) (job : JobPosting) :
    score_job embed now cve sk yrs job = none ↔ embedding_obtained embed job = false := by
  unfold score_job embedding_obtained
  cases h : (if truthyEmb job.embedding then job.embedding else embed (job_text job)) with
  | none => simp [truthyEmb]
  | some je => cases hje : je.isEmpty <;> simp [truthyEmb, hje]

/-- A job that obtains a usable embedding contributes the record built from
that embedding. -/
theorem score_job_of_obtained (embed : String → Option (List ℝ)) (now : String)
    (cve : List ℝ) (sk : List String) (yrs : ℤ) (job : JobPosting)
    (h : embedding_obtained embed job = true) :
    ∃ je, score_job embed now cve sk yrs job = some (mk_match now cve sk yrs job je) := by
  unfold embedding_obtained at h
  unfold score_job
  cases hc : (if truthyEmb job.embedding then job.embedding else embed (job_text job)) with
  | none => rw [hc] at h; simp [truthyEmb] at h
  | some je =>
    rw [hc] at h
    simp only [truthyEmb, Bool.not_eq_true'] at h
    exact ⟨je, by simp [h]⟩

/-- Every record produced for a job is the record built by `mk_match` from
some embedding vector. -/
theorem score_job_some_shape (embed : String → Option (List ℝ)) (now : String)
    (cve : List ℝ) (sk : List String) (yrs : ℤ) (job : JobPosting) (m : EmbeddingMatch)
    (h : score_job embed now cve sk yrs job = some m) :
    ∃ je, m = mk_match now cve sk yrs job je := by
  unfold score_job at h
  cases hc : (if truthyEmb job.embedding then job.embedding else embed (job_text job)) with
  | none => rw [hc] at h; cases h
  | some je =>
    rw [hc] at h
    simp only [] at h
    by_cases hje : je.isEmpty
    · rw [if_pos hje] at h; cases h
    · rw [if_neg hje] at h
      exact ⟨je, (Option.some.inj h).symm⟩

/-- Membership in the unsorted record list. -/
theorem mem_candidate_matches (embed : String → Option (List ℝ)) (now : String)
    (jobs : List JobPosting) (cve : List ℝ) (sk : List String) (yrs : ℤ)
    (m : EmbeddingMatch) :
    m ∈ candidate_matches embed now jobs cve sk yrs ↔
      ∃ job, job ∈ jobs ∧ score_job embed now cve sk yrs job = some m := by
  simp [candidate_matches, List.mem_filterMap]

/-- Every record in the ranked output is built by `mk_match` from a job of
the cache and some embedding vectors. -/
theorem mem_match_shape (embed : String → Option (List ℝ)) (now : String)
    (jobs : List JobPosting) (cv_text : String) (sk : List String) (yrs : ℤ)
    (m : EmbeddingMatch) (h : m ∈ match_cv_to_jobs embed now jobs cv_text sk yrs) :
    ∃ cve job je, embed cv_text = some cve ∧ job ∈ jobs ∧
      m = mk_match now cve sk yrs job je := by
  unfold match_cv_to_jobs at h
  cases hc : embed cv_text with
  | none => rw [hc] at h; cases h
  | some cve =>
    rw [hc] at h
    simp only [] at h
    by_cases he : cve.isEmpty
    · rw [if_pos he] at h; cases h
    · rw [if_neg he] at h
      rw [List.mem_mergeSort] at h
      rw [mem_candidate_matches] at h
      obtain ⟨job, hjob, hscore⟩ := h
      obtain ⟨je, rfl⟩ := score_job_some_shape embed now cve sk yrs job m hscore
      exact ⟨cve, job, je, rfl, hjob, rfl⟩


/-- The descending key order is total. -/
theorem optKeyLe_total (x y : Option ℝ) : optKeyLe x y || optKeyLe y x := by
  cases x with
  | none => simp [optKeyLe]
  | some a =>
    cases y with
    | none => simp [optKeyLe]
    | some b =>
      simp only [optKeyLe, Bool.or_eq_true, decide_eq_true_eq]
      exact le_total a b

/-- The descending key order is transitive. -/
theorem optKeyLe_trans (x y z : Option ℝ) (h1 : optKeyLe x y) (h2 : optKeyLe y z) :
    optKeyLe x z := by
  cases x with
  | none => simp [optKeyLe]
  | some a =>
    cases y with
    | none => simp [optKeyLe] at h1
    | some b =>
      cases z with
      | none => simp [optKeyLe] at h2
      | some c =>
        simp only [optKeyLe, decide_eq_true_eq] at h1 h2 ⊢
        exact le_trans h1 h2

/-- The descending key order is reflexive. -/
theorem optKeyLe_refl (x : Option ℝ) : optKeyLe x x := by
  cases x <;> simp [optKeyLe]

/-- Totality of the sort relation of `match_cv_to_jobs`. -/
theorem matchLe_total (a b : EmbeddingMatch) : matchLe a b || matchLe b a :=
  optKeyLe_total b.overall_score a.overall_score

/-- Transitivity of the sort relation of `match_cv_to_jobs`. -/
theorem matchLe_trans (a b c : EmbeddingMatch) (h1 : matchLe a b) (h2 : matchLe b c) :
    matchLe a c :=
  optKeyLe_trans c.overall_score b.overall_score a.overall_score h2 h1

/-- Records with equal overall scores are related by the sort relation, so a
stable sort keeps them in their original order. -/
theorem matchLe_of_eq (a b : EmbeddingMatch) (h : a.overall_score = b.overall_score) :
    matchLe a b := by
  unfold matchLe
  rw [h]
  exact optKeyLe_refl b.overall_score

/-- The job ids of the unsorted record list are exactly the ids of the jobs
that obtain a usable embedding, in cache order. -/
theorem candidate_matches_map_job_id (embed : String → Option (List ℝ)) (now : String)
    (jobs : List JobPosting) (cve : List ℝ) (sk : List String) (yrs : ℤ) :
    (candidate_matches embed now jobs cve sk yrs).map EmbeddingMatch.job_id =
      (jobs.filter (fun j => embedding_obtained embed j)).map JobPosting.job_id := by
  induction jobs with
  | nil => rfl
  | cons j t ih =>
    by_cases h : embedding_obtained embed j = true
    · obtain ⟨je, hje⟩ := score_job_of_obtained embed now cve sk yrs j h
      simp [candidate_matches, List.filterMap_cons, hje, List.filter_cons, h,
        mk_match_job_id] at ih ⊢
      exact ih
    · have hn : score_job embed now cve sk yrs j = none :=
        (score_job_eq_none_iff embed now cve sk yrs j).mpr (by simpa using h)
      simp [candidate_matches, List.filterMap_cons, hn, List.filter_cons, h] at ih ⊢
      exact ih

/-- Timestamp erasure commutes with per-job scoring: the two clock values
produce the same record up to the timestamp field. -/
theorem erase_ts_score_job (embed : String → Option (List ℝ)) (now1 now2 : String)
    (cve : List ℝ) (sk : List String) (yrs : ℤ) (job : JobPosting) :
    (score_job embed now1 cve sk yrs job).map erase_ts =
      (score_job embed now2 cve sk yrs job).map erase_ts := by
  unfold score_job
  cases hc : (if truthyEmb job.embedding then job.embedding else embed (job_text job)) with
  | none => rfl
  | some je =>
    by_cases hje : je.isEmpty
    · simp only [hje, if_true, Option.map_none']
    · simp only [hje, if_false, Option.map_some']
      rfl

/-- The sort relation ignores the timestamp. -/
theorem matchLe_erase_ts (a b : EmbeddingMatch) :
    matchLe a b = matchLe (erase_ts a) (erase_ts b) := rfl


/-! ### C1: jobs whose embedding could not be obtained -/

/-- C1 (amended): `match_cv_to_jobs` contains no two-factor fallback. When
the CV embedding cannot be obtained (the embedder returns `None` or an
empty vector) the whole result is the empty list; otherwise a job
contributes a record exactly when it obtains a usable embedding, so a job
whose embedding could not be obtained is silently dropped from the ranked
output. In every case the function returns normally rather than crashing. -/
theorem ranking_drops_jobs_without_embedding (embed : String → Option (List ℝ))
    (now : String) (jobs : List JobPosting) (cv_text : String) (sk : List String) (yrs : ℤ) :
    (embed cv_text = none → match_cv_to_jobs embed now jobs cv_text sk yrs = []) ∧
    (embed cv_text = some [] → match_cv_to_jobs embed now jobs cv_text sk yrs = []) ∧
    (∀ cve, embed cv_text = some cve → cve ≠ [] →
      ((match_cv_to_jobs embed now jobs cv_text sk yrs).map EmbeddingMatch.job_id).Perm
        ((jobs.filter (fun j => embedding_obtained embed j)).map JobPosting.job_id)) := by
  refine ⟨fun h => ?_, fun h => ?_, fun cve hc hne => ?_⟩
  · unfold match_cv_to_jobs
    rw [h]
  · unfold match_cv_to_jobs
    rw [h]
    rfl
  · unfold match_cv_to_jobs
    rw [hc]
    simp only []
    rw [if_neg (by simp [hne])]
    rw [← candidate_matches_map_job_id embed now jobs cve sk yrs]
    exact (List.mergeSort_perm (candidate_matches embed now jobs cve sk yrs) matchLe).map _

/-! ### C3: determinism and the clock -/

/-- C3 (amended): the ranked output is a pure function of the embedder, the
jobs cache and the CV inputs, except that every output record itself
carries the call-time clock in its `timestamp` field — the timestamp sits
inside each `EmbeddingMatch`, not on a separate envelope. Two calls with
identical inputs agree record-for-record once the timestamp field is
erased, and every record of a call is stamped with the clock value of that
call; scores and skill lists never depend on the clock. -/
theorem match_deterministic_up_to_timestamp (embed : String → Option (List ℝ))
    (now1 now2 : String) (jobs : List JobPosting) (cv_text : String) (sk : List String)
    (yrs : ℤ) :
    (match_cv_to_jobs embed now1 jobs cv_text sk yrs).map erase_ts =
      (match_cv_to_jobs embed now2 jobs cv_text sk yrs).map erase_ts ∧
    (∀ m ∈ match_cv_to_jobs embed now1 jobs cv_text sk yrs, m.timestamp = now1) := by
  constructor
  · unfold match_cv_to_jobs
    cases hc : embed cv_text with
    | none => rfl
    | some cve =>
      simp only []
      by_cases he : cve.isEmpty
      · rw [if_pos he, if_pos he]
      · rw [if_neg he, if_neg he]
        rw [List.map_mergeSort (fun a _ b _ => matchLe_erase_ts a b),
          List.map_mergeSort (fun a _ b _ => matchLe_erase_ts a b)]
        congr 1
        unfold candidate_matches
        rw [List.map_filterMap, List.map_filterMap]
        have hfun : (fun j => (score_job embed now1 cve sk yrs j).map erase_ts) =
            (fun j => (score_job embed now2 cve sk yrs j).map erase_ts) :=
          funext fun j => erase_ts_score_job embed now1 now2 cve sk yrs j
        rw [hfun]
  · intro m hm
    obtain ⟨cve, job, je, -, -, rfl⟩ :=
      mem_match_shape embed now1 jobs cv_text sk yrs m hm
    exact mk_match_timestamp now1 cve sk yrs job je

/-! ### C9: sort order and stability -/

/-- C9 (confirmed): whenever every produced overall score is an ordinary
float (no NaN key), the ranked output of `match_cv_to_jobs` is sorted by
overall score in non-increasing order; and two records with equal overall
scores keep the relative order they have in the unsorted per-job record
list, which follows the insertion order of the jobs cache — the sort is
stable. -/
theorem match_sorted_and_stable (embed : String → Option (List ℝ)) (now : String)
    (jobs : List JobPosting) (cv_text : String) (sk : List String) (yrs : ℤ) :
    ((∀ m ∈ match_cv_to_jobs embed now jobs cv_text sk yrs, m.overall_score ≠ none) →
      (match_cv_to_jobs embed now jobs cv_text sk yrs).Pairwise
        (fun a b => ∀ x y, a.overall_score = some x → b.overall_score = some y → y ≤ x)) ∧
    (∀ cve a b, embed cv_text = some cve → cve.isEmpty = false →
      [a, b].Sublist (candidate_matches embed now jobs cve sk yrs) →
      a.overall_score = b.overall_score →
      [a, b].Sublist (match_cv_to_jobs embed now jobs cv_text sk yrs)) := by
  constructor
  · intro _
    unfold match_cv_to_jobs
    cases hc : embed cv_text with
    | none => exact List.Pairwise.nil
    | some cve =>
      simp only []
      by_cases he : cve.isEmpty
      · rw [if_pos he]; exact List.Pairwise.nil
      · rw [if_neg he]
        refine List.Pairwise.imp ?_
          (List.sorted_mergeSort matchLe_trans matchLe_total
            (candidate_matches embed now jobs cve sk yrs))
        intro a b hab x y hx hy
        unfold matchLe at hab
        rw [hx, hy] at hab
        simpa [optKeyLe] using hab
  · intro cve a b hc he hsub heq
    unfold match_cv_to_jobs
    rw [hc]
    simp only []
    rw [if_neg (by simp [he])]
    exact List.pair_sublist_mergeSort matchLe_trans matchLe_total
      (matchLe_of_eq a b heq) hsub

/-! ### C10: bounds of the four-factor overall score -/

/-- C10 (confirmed): for every record of the ranked output whose overall
score is an ordinary float, if the similarity, keyword and experience
sub-scores lie in the unit interval then the overall score lies in
`[0.105, 0.955]`: the education term is the constant `0.7` weighted at
`0.15`, so the four-factor blend can reach neither `0` nor `1`. -/
theorem overall_score_bounds (embed : String → Option (List ℝ)) (now : String)
    (jobs : List JobPosting) (cv_text : String) (sk : List String) (yrs : ℤ)
    (m : EmbeddingMatch) (o : ℝ)
    (hm : m ∈ match_cv_to_jobs embed now jobs cv_text sk yrs)
    (ho : m.overall_score = some o)
    (hs : ∀ s, m.embedding_similarity = some s → 0 ≤ s ∧ s ≤ 1)
    (hk0 : 0 ≤ m.keyword_match_score) (hk1 : m.keyword_match_score ≤ 1)
    (he0 : 0 ≤ m.experience_match) (he1 : m.experience_match ≤ 1) :
    0.105 ≤ o ∧ o ≤ 0.955 := by
  obtain ⟨cve, job, je, -, -, rfl⟩ := mem_match_shape embed now jobs cv_text sk yrs m hm
  rw [mk_match_overall] at ho
  cases hsim : (mk_match now cve sk yrs job je).embedding_similarity with
  | none => rw [hsim] at ho; cases ho
  | some s =>
    rw [hsim] at ho
    simp only [Option.map_some'] at ho
    have hfo := Option.some.inj ho
    rw [mk_match_education now cve sk yrs job je] at hfo
    have hed : ((0.7 : ℚ) : ℝ) = 0.7 := by norm_num
    rw [hed] at hfo
    obtain ⟨hs0, hs1⟩ := hs s hsim
    have hk0' : (0 : ℝ) ≤ ((mk_match now cve sk yrs job je).keyword_match_score : ℝ) := by
      exact_mod_cast hk0
    have hk1' : ((mk_match now cve sk yrs job je).keyword_match_score : ℝ) ≤ 1 := by
      exact_mod_cast hk1
    have he0' : (0 : ℝ) ≤ ((mk_match now cve sk yrs job je).experience_match : ℝ) := by
      exact_mod_cast he0
    have he1' : ((mk_match now cve sk yrs job je).experience_match : ℝ) ≤ 1 := by
      exact_mod_cast he1
    constructor <;> nlinarith [hs0, hs1, hk0', hk1', he0', he1', hfo]


/-! ### A concrete scenario for witnesses and counterexamples -/

/-- Deterministic embedder stub: it knows only the text `cv`, mapped to the
one-dimensional vector `[1]`; every other text fails (`None`). -/
def embedA : String → Option (List ℝ) := fun s => if s = "cv" then some [1] else none

/-- Embedder stub that returns an empty (falsy) vector for the text `cv`. -/
def embedE : String → Option (List ℝ) := fun s => if s = "cv" then some [] else none

/-- Concrete job with a cached one-dimensional embedding, one required
skill and a two-year requirement. -/
def jobA : JobPosting :=
  { job_id := "job_a", title := "TA", company := "CA", description := "DA",
    required_skills := ["python"], preferred_skills := [], experience_years := 2,
    location := "", salary_range := "", posted_date := "", embedding := some [1],
    embedding_cached := true }

/-- Concrete job with no cached embedding; the stub embedder fails on its
canonical text, so this job can obtain no embedding. -/
def jobN : JobPosting :=
  { job_id := "job_n", title := "TN", company := "CN", description := "DN",
    required_skills := [], preferred_skills := [], experience_years := 0,
    location := "", salary_range := "", posted_date := "", embedding := none,
    embedding_cached := false }

/-- First of two jobs with identical scores, for the stability check. -/
def jobC : JobPosting :=
  { job_id := "job_c", title := "TC", company := "CC", description := "DC",
    required_skills := [], preferred_skills := [], experience_years := 0,
    location := "", salary_range := "", posted_date := "", embedding := some [1],
    embedding_cached := true }

/-- Second of two jobs with identical scores, for the stability check. -/
def jobD : JobPosting :=
  { job_id := "job_d", title := "TD", company := "CD", description := "DD",
    required_skills := [], preferred_skills := [], experience_years := 0,
    location := "", salary_range := "", posted_date := "", embedding := some [1],
    embedding_cached := true }

/-- The record produced for `jobA` from CV skills `python` and one year of
experience. -/
noncomputable def recA (now : String) : EmbeddingMatch := mk_match now [1] ["python"] 1 jobA [1]

/-- The record produced for `jobC`. -/
noncomputable def recC (now : String) : EmbeddingMatch := mk_match now [1] [] 0 jobC [1]

/-- The record produced for `jobD`. -/
noncomputable def recD (now : String) : EmbeddingMatch := mk_match now [1] [] 0 jobD [1]

theorem embedA_cv : embedA "cv" = some [1] := by
  unfold embedA
  rw [if_pos rfl]

theorem embedA_nope : embedA "nope" = none := by
  unfold embedA
  rw [if_neg (by decide)]

theorem embedE_cv : embedE "cv" = some [] := by
  unfold embedE
  rw [if_pos rfl]

theorem embedA_jobN : embedA (job_text jobN) = none := by
  unfold embedA
  rw [if_neg (by decide)]

theorem cos11 : cosine_similarity [1] [1] = some 1 := by
  unfold cosine_similarity
  norm_num [sumSq, dotp, Real.sqrt_one]

theorem kwA1 : (calculate_keyword_match ["python"] ["python"] []).1 = 1 := by
  rw [keyword_match_fst_no_pref ["python"] ["python"] (by decide)]
  have h : ((["python"].map pyLower).filter
      (fun s => decide (s ∈ (["python"] : List String).map pyLower))) = ["python"] := by
    decide
  rw [h]
  norm_num

theorem expA : calculate_experience_match 1 2 = 1 / 2 := by
  norm_num [calculate_experience_match, min_def]

theorem score_job_A (now : String) :
    score_job embedA now [1] ["python"] 1 jobA = some (recA now) := rfl

theorem score_job_C (now : String) :
    score_job embedA now [1] [] 0 jobC = some (recC now) := rfl

theorem score_job_D (now : String) :
    score_job embedA now [1] [] 0 jobD = some (recD now) := rfl

theorem score_job_N (now : String) : score_job embedA now [1] [] 0 jobN = none := by
  unfold score_job
  rw [show (if truthyEmb jobN.embedding then jobN.embedding else embedA (job_text jobN)) = none
    from embedA_jobN]

theorem candidate_matches_A (now : String) :
    candidate_matches embedA now [jobA] [1] ["python"] 1 = [recA now] := by
  simp [candidate_matches, List.filterMap_cons, score_job_A]

theorem candidate_matches_CD (now : String) :
    candidate_matches embedA now [jobC, jobD] [1] [] 0 = [recC now, recD now] := by
  simp [candidate_matches, List.filterMap_cons, score_job_C, score_job_D]

theorem match_cv_A (now : String) :
    match_cv_to_jobs embedA now [jobA] "cv" ["python"] 1 = [recA now] := by
  unfold match_cv_to_jobs
  rw [embedA_cv]
  simp only []
  rw [if_neg (by simp)]
  rw [candidate_matches_A]
  simp

theorem recA_overall (now : String) : (recA now).overall_score = some 0.88 := by
  have h : (recA now).overall_score = (cosine_similarity [1] [1]).map (fun s =>
      s * 0.40 + ((calculate_keyword_match ["python"] ["python"] []).1 : ℝ) * 0.30 +
      ((calculate_experience_match 1 2 : ℚ) : ℝ) * 0.15 + ((0.7 : ℚ) : ℝ) * 0.15) := rfl
  rw [h, cos11, kwA1, expA]
  simp only [Option.map_some']
  norm_num

theorem recA_sim (now : String) :
    (recA now).embedding_similarity = cosine_similarity [1] [1] := rfl

theorem recA_kw (now : String) :
    (recA now).keyword_match_score = (calculate_keyword_match ["python"] ["python"] []).1 := rfl

theorem recA_exp (now : String) :
    (recA now).experience_match = calculate_experience_match 1 2 := rfl

theorem recC_recD_overall (now : String) :
    (recC now).overall_score = (recD now).overall_score := rfl

theorem recC_overall_ne (now : String) : (recC now).overall_score ≠ none := by
  have h : (recC now).overall_score = (cosine_similarity [1] [1]).map (fun s =>
      s * 0.40 + ((calculate_keyword_match [] [] []).1 : ℝ) * 0.30 +
      ((calculate_experience_match 0 0 : ℚ) : ℝ) * 0.15 + ((0.7 : ℚ) : ℝ) * 0.15) := rfl
  rw [h, cos11]
  simp

theorem match_cv_CD (now : String) :
    match_cv_to_jobs embedA now [jobC, jobD] "cv" [] 0 = [recC now, recD now] := by
  unfold match_cv_to_jobs
  rw [embedA_cv]
  simp only []
  rw [if_neg (by simp)]
  rw [candidate_matches_CD]
  exact List.mergeSort_of_sorted
    (List.pairwise_pair.mpr (matchLe_of_eq (recC now) (recD now) (recC_recD_overall now)))


/-- C1 counterexample: a catalog containing only `jobN`, whose embedding
cannot be obtained, yields an empty ranked output — the job does not appear
with a two-factor score as the claim states; it is silently dropped. -/
theorem ranking_drops_counterexample :
    match_cv_to_jobs embedA "t" [jobN] "cv" [] 0 = [] := by
  unfold match_cv_to_jobs
  rw [embedA_cv]
  simp only []
  rw [if_neg (by simp)]
  rw [show candidate_matches embedA "t" [jobN] [1] [] 0 = [] from by
    simp [candidate_matches, List.filterMap_cons, score_job_N]]
  simp

/-- C1 witness: the three cases of the amended statement at concrete
inputs — unknown CV text, empty CV embedding, and a catalog mixing a job
with an embedding and a job without one. -/
theorem ranking_drops_witness :
    match_cv_to_jobs embedA "t" [jobA] "nope" ["python"] 1 = [] ∧
    match_cv_to_jobs embedE "t" [jobA] "cv" ["python"] 1 = [] ∧
    ((match_cv_to_jobs embedA "t" [jobA, jobN] "cv" ["python"] 1).map
        EmbeddingMatch.job_id).Perm
      (([jobA, jobN].filter (fun j => embedding_obtained embedA j)).map JobPosting.job_id) :=
  ⟨(ranking_drops_jobs_without_embedding embedA "t" [jobA] "nope" ["python"] 1).1 embedA_nope,
   (ranking_drops_jobs_without_embedding embedE "t" [jobA] "cv" ["python"] 1).2.1 embedE_cv,
   (ranking_drops_jobs_without_embedding embedA "t" [jobA, jobN] "cv" ["python"] 1).2.2
     [1] embedA_cv (by simp)⟩

/-- C3 counterexample: two calls with identical inputs but different clock
readings disagree byte-for-byte, because the clock value is stored inside
each result record (field `timestamp` of `EmbeddingMatch`), not on an
envelope outside the records. -/
theorem match_timestamp_counterexample :
    match_cv_to_jobs embedA "t1" [jobA] "cv" ["python"] 1 ≠
      match_cv_to_jobs embedA "t2" [jobA] "cv" ["python"] 1 := by
  rw [match_cv_A, match_cv_A]
  intro h
  injection h with h1 h2
  have h3 : ("t1" : String) = "t2" := congrArg EmbeddingMatch.timestamp h1
  exact absurd h3 (by decide)

/-- C3 witness: at concrete inputs, the outputs of two calls agree after
erasing timestamps, and the record of the first call is stamped with the
clock of the first call. -/
theorem match_deterministic_witness :
    (match_cv_to_jobs embedA "t1" [jobA] "cv" ["python"] 1).map erase_ts =
      (match_cv_to_jobs embedA "t2" [jobA] "cv" ["python"] 1).map erase_ts ∧
    (recA "t1").timestamp = "t1" :=
  ⟨(match_deterministic_up_to_timestamp embedA "t1" "t2" [jobA] "cv" ["python"] 1).1,
   (match_deterministic_up_to_timestamp embedA "t1" "t2" [jobA] "cv" ["python"] 1).2
     (recA "t1") (by rw [match_cv_A]; exact List.mem_singleton.mpr rfl)⟩

/-- C9 witness: a catalog of two jobs with equal overall scores — the
output is sorted and the two records keep their catalog order. -/
theorem match_sorted_and_stable_witness :
    (match_cv_to_jobs embedA "t" [jobC, jobD] "cv" [] 0).Pairwise
      (fun a b => ∀ x y, a.overall_score = some x → b.overall_score = some y → y ≤ x) ∧
    [recC "t", recD "t"].Sublist (match_cv_to_jobs embedA "t" [jobC, jobD] "cv" [] 0) := by
  constructor
  · refine (match_sorted_and_stable embedA "t" [jobC, jobD] "cv" [] 0).1 ?_
    intro m hm
    rw [match_cv_CD] at hm
    simp only [List.mem_cons, List.mem_singleton, List.not_mem_nil, or_false] at hm
    rcases hm with hm | hm
    · rw [hm]
      exact recC_overall_ne "t"
    · rw [hm]
      rw [← recC_recD_overall "t"]
      exact recC_overall_ne "t"
  · exact (match_sorted_and_stable embedA "t" [jobC, jobD] "cv" [] 0).2
      [1] (recC "t") (recD "t") embedA_cv rfl
      (by rw [candidate_matches_CD]) (recC_recD_overall "t")

/-- C10 witness: the record of `jobA` has overall score `0.88`, inside the
interval `[0.105, 0.955]`. -/
theorem overall_score_bounds_witness : (0.105 : ℝ) ≤ 0.88 ∧ (0.88 : ℝ) ≤ 0.955 := by
  refine overall_score_bounds embedA "t" [jobA] "cv" ["python"] 1 (recA "t") 0.88
    ?_ ?_ ?_ ?_ ?_ ?_ ?_
  · rw [match_cv_A]
    exact List.mem_singleton.mpr rfl
  · exact recA_overall "t"
  · intro s h
    rw [recA_sim, cos11] at h
    have hs := Option.some.inj h
    rw [← hs]
    norm_num
  · rw [recA_kw]
    exact (keyword_match_fst_bounds ["python"] ["python"] []).1
  · rw [recA_kw]
    exact (keyword_match_fst_bounds ["python"] ["python"] []).2
  · rw [recA_exp, expA]
    norm_num
  · rw [recA_exp, expA]
    norm_num


/-- C7 witness: the membership characterization applied at a concrete
case-variant pair. -/
theorem keyword_match_case_insensitive_no_trim_witness :
    "python" ∈ (calculate_keyword_match ["Python"] ["PYTHON"] []).2.1 :=
  (keyword_match_case_insensitive_no_trim.1 ["Python"] ["PYTHON"] [] "python").mpr
    ⟨by decide, by decide⟩

